import Mathlib

/-!
Verification of the max-pooling-with-index operator pair
(`max_pool2d_with_index` / `max_pool3d_with_index` and their gradients)
from `paddle/operators/pool_with_index_op.cc`.

The shape-inference code (`MaxPoolWithIndexOp::InferShape`,
`MaxPoolWithIndexOpGrad::InferShape`, `OutputSizeMaxPool`) is embedded
directly from the C++ source.  Tensor dimensions and attribute entries are
modelled as unbounded `Int` (the C++ values are `int64_t` / `int`; no claim
here concerns machine-integer overflow).  C++ integer division on `int`
truncates toward zero, so it is embedded as `Int.tdiv`, not Lean's `/`
(Euclidean division).  A `PADDLE_ENFORCE` failure aborts the operation with
the given message; this is embedded as `Except.error msg`, so an error
result sets no output dimension.
-/

/-- Error message of `PADDLE_ENFORCE(ctx->HasInput("X"), ...)` (line 31). -/
def errX : String := "X(Input) of Pooling should not be null."

/-- Error message of `PADDLE_ENFORCE(ctx->HasOutput("Out"), ...)` (line 33). -/
def errOut : String := "Out(Output) of Pooling should not be null."

/-- Error message of `PADDLE_ENFORCE(ctx->HasOutput("Mask"), ...)` (line 35). -/
def errMask : String := "Mask(Output) of Pooling should not be null."

/-- Error message of the rank check (line 44); typo `intput` as in the source. -/
def errRank : String := "Pooling intput should be 4-D or 5-D tensor."

/-- Error message of the size-consistency check (line 55). -/
def errConsistent : String := "Input size and pooling size should be consistent."

/-- Error message of the strides-size check (line 57). -/
def errStrides : String := "Strides size and pooling size should be the same."

/-- Error message of the paddings-size check (line 59). -/
def errPaddings : String := "Paddings size and pooling size should be the same."

/-- Error message of `PADDLE_ENFORCE(ctx->HasInput("Mask"), ...)` (line 77). -/
def errGradMask : String := "Input(Mask) must not be null."

/-- Error message of `PADDLE_ENFORCE(ctx->HasInput("X"), ...)` (line 78). -/
def errGradX : String := "Input(X) must not be null."

/-- Error message of `PADDLE_ENFORCE(ctx->HasOutput(GradVarName("X")), ...)` (line 79). -/
def errGradXGrad : String := "Input(X@GRAD) should not be null."

/-- The pooling attributes read from the attribute map (lines 40-42, 47):
`ksize`, `strides`, `paddings` and the `globalPooling` flag. -/
structure PoolAttrs where
  ksize : List Int
  strides : List Int
  paddings : List Int
  globalPooling : Bool
deriving DecidableEq, Repr

/-- The part of `InferShapeContext` that `MaxPoolWithIndexOp::InferShape`
reads: presence flags of `X`, `Out`, `Mask`, the dimensions of `X`, and the
attributes. -/
structure PoolCtx where
  hasX : Bool
  hasOut : Bool
  hasMask : Bool
  xDims : List Int
  attrs : PoolAttrs
deriving DecidableEq, Repr

/-- The part of `InferShapeContext` that `MaxPoolWithIndexOpGrad::InferShape`
reads: presence flags of `Mask`, `X`, `X@GRAD` and the dimensions of the
tensors.  `maskDims` and `dOutDims` are carried to show they are never read. -/
structure PoolGradCtx where
  hasMask : Bool
  hasX : Bool
  hasXGrad : Bool
  xDims : List Int
  maskDims : List Int
  dOutDims : List Int
deriving DecidableEq, Repr

/-- `OutputSizeMaxPool` (lines 20-24):
`(input_size - filter_size + 2 * padding) / stride + 1` with C++ truncating
integer division. -/
def OutputSizeMaxPool (input_size filter_size padding stride : Int) : Int :=
  Int.tdiv (input_size - filter_size + 2 * padding) stride + 1

/-- Overwrite the first `k` entries of a list with `0`: the effect of the
loop `paddings[i] = 0` for `i < ksize.size()` (line 50). -/
def zeroFirst : Nat → List Int → List Int
  | 0, ps => ps
  | _, [] => []
  | k + 1, _ :: ps => 0 :: zeroFirst k ps

/-- The `globalPooling` adjustment (lines 47-53): when the flag is set,
`ksize` is resized to `rank - 2` and each entry overwritten with the
corresponding spatial input dimension (so it becomes `dims.drop 2`), and the
first `rank - 2` entries of `paddings` are zeroed; `strides` is untouched. -/
def globalAdjust (dims : List Int) (a : PoolAttrs) : PoolAttrs :=
  if a.globalPooling then
    { a with ksize := dims.drop 2, paddings := zeroFirst (dims.length - 2) a.paddings }
  else a

/-- The spatial output dimensions (loop at lines 63-66): pointwise
`OutputSizeMaxPool` over input spatial dims, ksize, paddings, strides. -/
def outDims : List Int → List Int → List Int → List Int → List Int
  | i :: is, k :: ks, p :: ps, s :: ss =>
      OutputSizeMaxPool i k p s :: outDims is ks ps ss
  | _, _, _, _ => []

/-- The `output_shape` vector (lines 62-66): batch and channel dims followed
by the computed spatial output dims. -/
def computedShape (dims : List Int) (a : PoolAttrs) : List Int :=
  dims.take 2 ++ outDims (dims.drop 2) a.ksize a.paddings a.strides

/-- `MaxPoolWithIndexOp::InferShape` (lines 30-69).  Returns the pair of
shapes set for `Out` and `Mask`, or the message of the first failing
`PADDLE_ENFORCE`.  The unsigned check `in_x_dims.size() - ksize.size() == 2U`
is equivalent to `rank = |ksize| + 2` (sizes are below `2^64 - 2`, so the
wrap-around branch never equals 2). -/
def inferShape (ctx : PoolCtx) : Except String (List Int × List Int) :=
  if ctx.hasX then
    if ctx.hasOut then
      if ctx.hasMask then
        if ctx.xDims.length = 4 ∨ ctx.xDims.length = 5 then
          let a := globalAdjust ctx.xDims ctx.attrs
          if ctx.xDims.length = a.ksize.length + 2 then
            if a.ksize.length = a.strides.length then
              if a.ksize.length = a.paddings.length then
                let shape := computedShape ctx.xDims a
                Except.ok (shape, shape)
              else Except.error errPaddings
            else Except.error errStrides
          else Except.error errConsistent
        else Except.error errRank
      else Except.error errMask
    else Except.error errOut
  else Except.error errX

/-- `MaxPoolWithIndexOpGrad::InferShape` (lines 76-82): after the three
presence checks, the `X@GRAD` shape is set to the `X` shape; `maskDims` and
`dOutDims` are never read. -/
def gradInferShape (ctx : PoolGradCtx) : Except String (List Int) :=
  if ctx.hasMask then
    if ctx.hasX then
      if ctx.hasXGrad then
        Except.ok ctx.xDims
      else Except.error errGradXGrad
    else Except.error errGradX
  else Except.error errGradMask

/-- C6: gradient shape inference sets the `X@GRAD` shape exactly equal to the
`X` shape, and fails with a fatal configuration error whenever the `Mask`
input, the `X` input, or the `X@GRAD` output reference is missing. -/
theorem grad_shape_and_missing_refs (dims md dd : List Int) (b₂ b₃ : Bool) :
    gradInferShape ⟨true, true, true, dims, md, dd⟩ = Except.ok dims
    ∧ gradInferShape ⟨false, b₂, b₃, dims, md, dd⟩ = Except.error errGradMask
    ∧ gradInferShape ⟨true, false, b₃, dims, md, dd⟩ = Except.error errGradX
    ∧ gradInferShape ⟨true, true, false, dims, md, dd⟩ = Except.error errGradXGrad :=
  ⟨rfl, rfl, rfl, rfl⟩

/-- C7: forward shape inference with a missing `X` input, missing `Out`
output, or missing `Mask` output aborts with the corresponding fatal error,
uniformly in the dimensions and attributes (so before any dimension is read
or computed). -/
theorem forward_missing_refs (dims : List Int) (a : PoolAttrs) (o m : Bool) :
    inferShape ⟨false, o, m, dims, a⟩ = Except.error errX
    ∧ inferShape ⟨true, false, m, dims, a⟩ = Except.error errOut
    ∧ inferShape ⟨true, true, false, dims, a⟩ = Except.error errMask :=
  ⟨rfl, rfl, rfl⟩

/-- C10: gradient shape inference reads only the presence flags and the `X`
dimensions; any two invocations agreeing on those give identical results,
whatever the `Mask` and output-gradient dimensions are — no consistency
check between `Mask`, `dOut` and `X` shapes is performed. -/
theorem grad_shape_ignores_mask_dims (m x g : Bool) (dims md₁ dd₁ md₂ dd₂ : List Int) :
    gradInferShape ⟨m, x, g, dims, md₁, dd₁⟩ = gradInferShape ⟨m, x, g, dims, md₂, dd₂⟩ :=
  rfl

/-- C2 counterexample: input `1×1×2×2`, window `5×5`, stride `1×1`, padding
`0×0` gives computed output spatial dims `(2 - 5 + 0)/1 + 1 = -2 ≤ 0`, yet
shape inference raises no error: it succeeds and sets `Out` and `Mask` to
`[1, 1, -2, -2]`. -/
theorem no_check_on_nonpositive_outdim :
    inferShape ⟨true, true, true, [1, 1, 2, 2], ⟨[5, 5], [1, 1], [0, 0], false⟩⟩
      = Except.ok ([1, 1, -2, -2], [1, 1, -2, -2])
    ∧ (-2 : Int) ≤ 0 := by
  exact ⟨rfl, by decide⟩

/-- C5 counterexample: with `globalPooling = true`, input `1×1×4×4` and a
supplied `windowSize = [3]` of length 1 (violating both
`rank − 2 = |windowSize|` and `|windowSize| = |stride|` as stated over the
supplied configuration), shape inference does not fail: it succeeds with
output shape `[1, 1, 1, 1]`. -/
theorem precondition_bypass_under_global_pooling :
    inferShape ⟨true, true, true, [1, 1, 4, 4], ⟨[3], [1, 1], [0, 0], true⟩⟩
      = Except.ok ([1, 1, 1, 1], [1, 1, 1, 1]) := by
  rfl

lemma zeroFirst_length (k : Nat) (ps : List Int) : (zeroFirst k ps).length = ps.length := by
  induction ps generalizing k with
  | nil => cases k <;> rfl
  | cons p ps ih => cases k with
    | zero => rfl
    | succ k => simpa [zeroFirst] using ih k

lemma zeroFirst_getElem? (k : Nat) (ps : List Int) (i : Nat)
    (hik : i < k) (hip : i < ps.length) : (zeroFirst k ps)[i]? = some 0 := by
  induction ps generalizing k i with
  | nil => simp at hip
  | cons p ps ih =>
    cases k with
    | zero => omega
    | succ k =>
      cases i with
      | zero => simp [zeroFirst]
      | succ i =>
        simp only [zeroFirst, List.getElem?_cons_succ]
        exact ih k i (by omega) (by simpa using hip)

lemma outDims_length (as bs cs ds : List Int)
    (h1 : as.length = bs.length) (h2 : as.length = cs.length)
    (h3 : as.length = ds.length) :
    (outDims as bs cs ds).length = as.length := by
  induction as generalizing bs cs ds with
  | nil => cases bs <;> cases cs <;> cases ds <;> simp [outDims]
  | cons a as ih =>
    cases bs with
    | nil => simp at h1
    | cons b bs =>
      cases cs with
      | nil => simp at h2
      | cons c cs =>
        cases ds with
        | nil => simp at h3
        | cons d ds =>
          simp only [outDims, List.length_cons]
          have := ih bs cs ds (by simpa using h1) (by simpa using h2) (by simpa using h3)
          omega

lemma outDims_getElem? (as bs cs ds : List Int) (i : Nat) (a k p s : Int)
    (ha : as[i]? = some a) (hb : bs[i]? = some k)
    (hc : cs[i]? = some p) (hd : ds[i]? = some s) :
    (outDims as bs cs ds)[i]? = some (OutputSizeMaxPool a k p s) := by
  induction as generalizing bs cs ds i with
  | nil => simp at ha
  | cons a0 as ih =>
    cases bs with
    | nil => simp at hb
    | cons b0 bs =>
      cases cs with
      | nil => simp at hc
      | cons c0 cs =>
        cases ds with
        | nil => simp at hd
        | cons d0 ds =>
          cases i with
          | zero =>
            simp only [List.getElem?_cons_zero, Option.some.injEq] at ha hb hc hd
            subst ha hb hc hd
            simp [outDims]
          | succ i =>
            simp only [List.getElem?_cons_succ] at ha hb hc hd
            simp only [outDims, List.getElem?_cons_succ]
            exact ih bs cs ds i ha hb hc hd

lemma inferShape_ok (ctx : PoolCtx)
    (hX : ctx.hasX = true) (hO : ctx.hasOut = true) (hM : ctx.hasMask = true)
    (hrank : ctx.xDims.length = 4 ∨ ctx.xDims.length = 5)
    (hk : ctx.xDims.length = (globalAdjust ctx.xDims ctx.attrs).ksize.length + 2)
    (hs : (globalAdjust ctx.xDims ctx.attrs).ksize.length
            = (globalAdjust ctx.xDims ctx.attrs).strides.length)
    (hp : (globalAdjust ctx.xDims ctx.attrs).ksize.length
            = (globalAdjust ctx.xDims ctx.attrs).paddings.length) :
    inferShape ctx
      = Except.ok (computedShape ctx.xDims (globalAdjust ctx.xDims ctx.attrs),
                   computedShape ctx.xDims (globalAdjust ctx.xDims ctx.attrs)) := by
  simp only [inferShape, hX, hO, hM, if_true]
  rw [if_pos hrank, if_pos hk, if_pos hs, if_pos hp]

lemma computedShape_getElem?_zero (dims : List Int) (a : PoolAttrs)
    (h2 : 2 ≤ dims.length) : (computedShape dims a)[0]? = dims[0]? := by
  unfold computedShape
  rw [List.getElem?_append_left (by simp [List.length_take]; omega),
    List.getElem?_take, if_pos (by omega)]

lemma computedShape_getElem?_one (dims : List Int) (a : PoolAttrs)
    (h2 : 2 ≤ dims.length) : (computedShape dims a)[1]? = dims[1]? := by
  unfold computedShape
  rw [List.getElem?_append_left (by simp [List.length_take]; omega),
    List.getElem?_take, if_pos (by omega)]

lemma computedShape_getElem?_spatial (dims : List Int) (a : PoolAttrs) (i : Nat)
    (h2 : 2 ≤ dims.length) :
    (computedShape dims a)[2 + i]?
      = (outDims (dims.drop 2) a.ksize a.paddings a.strides)[i]? := by
  unfold computedShape
  have hlen : (dims.take 2).length = 2 := by simp [List.length_take]; omega
  rw [List.getElem?_append_right (by omega), hlen]
  congr 1
  omega

lemma computedShape_length (dims : List Int) (a : PoolAttrs)
    (h2 : 2 ≤ dims.length)
    (hk : dims.length = a.ksize.length + 2)
    (hs : a.ksize.length = a.strides.length)
    (hp : a.ksize.length = a.paddings.length) :
    (computedShape dims a).length = dims.length := by
  unfold computedShape
  rw [List.length_append, List.length_take,
    outDims_length _ _ _ _ (by simp; omega) (by simp; omega) (by simp; omega)]
  simp
  omega

lemma globalAdjust_of_not_global (dims : List Int) (a : PoolAttrs)
    (hg : a.globalPooling = false) : globalAdjust dims a = a := by
  simp [globalAdjust, hg]

lemma globalAdjust_ksize_of_global (dims : List Int) (a : PoolAttrs)
    (hg : a.globalPooling = true) : (globalAdjust dims a).ksize = dims.drop 2 := by
  simp [globalAdjust, hg]

lemma globalAdjust_strides (dims : List Int) (a : PoolAttrs) :
    (globalAdjust dims a).strides = a.strides := by
  unfold globalAdjust
  split <;> rfl

lemma globalAdjust_paddings_of_global (dims : List Int) (a : PoolAttrs)
    (hg : a.globalPooling = true) :
    (globalAdjust dims a).paddings = zeroFirst (dims.length - 2) a.paddings := by
  simp [globalAdjust, hg]

/-- C1: for rank-4 or rank-5 input and `|windowSize| = |stride| = |padding| =
rank − 2` (with `globalPooling` off, so the supplied window is the one used),
shape inference succeeds; the `Out` shape has the input's rank, keeps batch
and channel dims, each spatial entry is
`(inDim[i] − windowSize[i] + 2*padding[i]) / stride[i] + 1` with truncating
division, and the `Mask` shape is exactly the `Out` shape. -/
theorem shape_inference_formula (ctx : PoolCtx)
    (hX : ctx.hasX = true) (hO : ctx.hasOut = true) (hM : ctx.hasMask = true)
    (hg : ctx.attrs.globalPooling = false)
    (hrank : ctx.xDims.length = 4 ∨ ctx.xDims.length = 5)
    (hk : ctx.attrs.ksize.length + 2 = ctx.xDims.length)
    (hs : ctx.attrs.strides.length = ctx.attrs.ksize.length)
    (hp : ctx.attrs.paddings.length = ctx.attrs.ksize.length) :
    ∃ out, inferShape ctx = Except.ok (out, out)
      ∧ out.length = ctx.xDims.length
      ∧ out[0]? = ctx.xDims[0]?
      ∧ out[1]? = ctx.xDims[1]?
      ∧ ∀ i a k p s, ctx.xDims[2 + i]? = some a → ctx.attrs.ksize[i]? = some k →
          ctx.attrs.paddings[i]? = some p → ctx.attrs.strides[i]? = some s →
          out[2 + i]? = some (Int.tdiv (a - k + 2 * p) s + 1) := by
  have hadj : globalAdjust ctx.xDims ctx.attrs = ctx.attrs :=
    globalAdjust_of_not_global _ _ hg
  refine ⟨computedShape ctx.xDims ctx.attrs, ?_, ?_, ?_, ?_, ?_⟩
  · rw [inferShape_ok ctx hX hO hM hrank (by rw [hadj]; omega)
      (by rw [hadj]; omega) (by rw [hadj]; omega), hadj]
  · exact computedShape_length _ _ (by omega) (by omega) (by omega) (by omega)
  · exact computedShape_getElem?_zero _ _ (by omega)
  · exact computedShape_getElem?_one _ _ (by omega)
  · intro i a k p s ha hk' hp' hs'
    rw [computedShape_getElem?_spatial _ _ _ (by omega)]
    have hdrop : (ctx.xDims.drop 2)[i]? = some a := by
      rw [List.getElem?_drop]; exact ha
    exact outDims_getElem? _ _ _ _ i a k p s hdrop hk' hp' hs'

/-- C1 witness: a concrete rank-4 instance, input `2×3×7×7`, window `3×3`,
stride `2×2`, padding `1×1`. -/
theorem shape_inference_formula_witness :
    ∃ out, inferShape ⟨true, true, true, [2, 3, 7, 7], ⟨[3, 3], [2, 2], [1, 1], false⟩⟩
        = Except.ok (out, out)
      ∧ out.length = ([2, 3, 7, 7] : List Int).length
      ∧ out[0]? = ([2, 3, 7, 7] : List Int)[0]?
      ∧ out[1]? = ([2, 3, 7, 7] : List Int)[1]?
      ∧ ∀ i a k p s, ([2, 3, 7, 7] : List Int)[2 + i]? = some a →
          ([3, 3] : List Int)[i]? = some k → ([1, 1] : List Int)[i]? = some p →
          ([2, 2] : List Int)[i]? = some s →
          out[2 + i]? = some (Int.tdiv (a - k + 2 * p) s + 1) :=
  shape_inference_formula ⟨true, true, true, [2, 3, 7, 7], ⟨[3, 3], [2, 2], [1, 1], false⟩⟩
    rfl rfl rfl rfl (by decide) (by decide) (by decide) (by decide)

/-- C2 amended: shape inference performs no positivity check on the computed
output spatial dimensions; for any configuration passing the structural
checks whose computed `outDim` at axis `i` is ≤ 0, it still succeeds and
stores that non-positive value in the `Out`/`Mask` shape. -/
theorem nonpositive_outdim_is_stored (ctx : PoolCtx)
    (hX : ctx.hasX = true) (hO : ctx.hasOut = true) (hM : ctx.hasMask = true)
    (hg : ctx.attrs.globalPooling = false)
    (hrank : ctx.xDims.length = 4 ∨ ctx.xDims.length = 5)
    (hk : ctx.attrs.ksize.length + 2 = ctx.xDims.length)
    (hs : ctx.attrs.strides.length = ctx.attrs.ksize.length)
    (hp : ctx.attrs.paddings.length = ctx.attrs.ksize.length)
    (i : Nat) (a k p s : Int)
    (ha : ctx.xDims[2 + i]? = some a) (hk' : ctx.attrs.ksize[i]? = some k)
    (hp' : ctx.attrs.paddings[i]? = some p) (hs' : ctx.attrs.strides[i]? = some s)
    (_hneg : Int.tdiv (a - k + 2 * p) s + 1 ≤ 0) :
    ∃ out, inferShape ctx = Except.ok (out, out)
      ∧ out[2 + i]? = some (Int.tdiv (a - k + 2 * p) s + 1) := by
  have hadj : globalAdjust ctx.xDims ctx.attrs = ctx.attrs :=
    globalAdjust_of_not_global _ _ hg
  refine ⟨computedShape ctx.xDims ctx.attrs, ?_, ?_⟩
  · rw [inferShape_ok ctx hX hO hM hrank (by rw [hadj]; omega)
      (by rw [hadj]; omega) (by rw [hadj]; omega), hadj]
  · rw [computedShape_getElem?_spatial _ _ _ (by omega)]
    have hdrop : (ctx.xDims.drop 2)[i]? = some a := by
      rw [List.getElem?_drop]; exact ha
    exact outDims_getElem? _ _ _ _ i a k p s hdrop hk' hp' hs'

/-- C2 amended witness: input `1×1×2×2`, window `5×5`, stride `1×1`, padding
`0×0`; the computed height dim is `-2 ≤ 0` and it is stored. -/
theorem nonpositive_outdim_is_stored_witness :
    ∃ out, inferShape ⟨true, true, true, [1, 1, 2, 2], ⟨[5, 5], [1, 1], [0, 0], false⟩⟩
        = Except.ok (out, out)
      ∧ out[2 + 0]? = some (Int.tdiv (2 - 5 + 2 * 0) 1 + 1) :=
  nonpositive_outdim_is_stored
    ⟨true, true, true, [1, 1, 2, 2], ⟨[5, 5], [1, 1], [0, 0], false⟩⟩
    rfl rfl rfl rfl (by decide) (by decide) (by decide) (by decide)
    0 2 5 0 1 (by decide) (by decide) (by decide) (by decide) (by decide)

/-- C3: with `globalPooling = true` the adjustment overwrites `windowSize`
with the input's spatial dims (entrywise `ksize[i] = inDim[i+2]`) and zeroes
`padding[i]` for every spatial axis `i`, while `strides` is untouched; with
`globalPooling = false` the configuration is unchanged. -/
theorem global_adjust_spec (dims : List Int) (a : PoolAttrs) (i : Nat)
    (hi : i + 2 < dims.length) (hp : a.paddings.length = dims.length - 2) :
    (a.globalPooling = true →
      (globalAdjust dims a).ksize = dims.drop 2
      ∧ (globalAdjust dims a).ksize[i]? = dims[i + 2]?
      ∧ (globalAdjust dims a).paddings[i]? = some 0
      ∧ (globalAdjust dims a).strides = a.strides)
    ∧ (a.globalPooling = false → globalAdjust dims a = a) := by
  constructor
  · intro hg
    refine ⟨globalAdjust_ksize_of_global _ _ hg, ?_, ?_, globalAdjust_strides _ _⟩
    · rw [globalAdjust_ksize_of_global _ _ hg, List.getElem?_drop]
      congr 1
      omega
    · rw [globalAdjust_paddings_of_global _ _ hg]
      exact zeroFirst_getElem? _ _ _ (by omega) (by omega)
  · intro hg
    exact globalAdjust_of_not_global _ _ hg

/-- C3 witness: input dims `1×2×3×4`, supplied `ksize = [9]`,
`strides = [7, 7]`, `paddings = [5, 5]`, axis `i = 0`, flag on. -/
theorem global_adjust_spec_witness :
    (globalAdjust [1, 2, 3, 4] ⟨[9], [7, 7], [5, 5], true⟩).ksize = ([1, 2, 3, 4] : List Int).drop 2
    ∧ (globalAdjust [1, 2, 3, 4] ⟨[9], [7, 7], [5, 5], true⟩).ksize[0]?
        = ([1, 2, 3, 4] : List Int)[0 + 2]?
    ∧ (globalAdjust [1, 2, 3, 4] ⟨[9], [7, 7], [5, 5], true⟩).paddings[0]? = some 0
    ∧ (globalAdjust [1, 2, 3, 4] ⟨[9], [7, 7], [5, 5], true⟩).strides = [7, 7] :=
  (global_adjust_spec [1, 2, 3, 4] ⟨[9], [7, 7], [5, 5], true⟩ 0
    (by decide) (by decide)).1 rfl

/-- C4: with `globalPooling = true` on a rank-4 or rank-5 input, shape
inference succeeds and every computed output spatial dimension equals `1`,
whatever `windowSize` (any length, any values) and `padding` values were
supplied.  Strides must be nonzero (a zero stride makes the C++ division
undefined behaviour). -/
theorem global_pooling_outdim_one (ctx : PoolCtx)
    (hX : ctx.hasX = true) (hO : ctx.hasOut = true) (hM : ctx.hasMask = true)
    (hg : ctx.attrs.globalPooling = true)
    (hrank : ctx.xDims.length = 4 ∨ ctx.xDims.length = 5)
    (hs : ctx.attrs.strides.length = ctx.xDims.length - 2)
    (hp : ctx.attrs.paddings.length = ctx.xDims.length - 2)
    (_hnz : ∀ s ∈ ctx.attrs.strides, s ≠ 0) :
    ∃ out, inferShape ctx = Except.ok (out, out)
      ∧ out.length = ctx.xDims.length
      ∧ ∀ i, 2 ≤ i → i < ctx.xDims.length → out[i]? = some 1 := by
  have hks : (globalAdjust ctx.xDims ctx.attrs).ksize = ctx.xDims.drop 2 :=
    globalAdjust_ksize_of_global _ _ hg
  have hstr : (globalAdjust ctx.xDims ctx.attrs).strides = ctx.attrs.strides :=
    globalAdjust_strides _ _
  have hpad : (globalAdjust ctx.xDims ctx.attrs).paddings
      = zeroFirst (ctx.xDims.length - 2) ctx.attrs.paddings :=
    globalAdjust_paddings_of_global _ _ hg
  have hklen : (globalAdjust ctx.xDims ctx.attrs).ksize.length = ctx.xDims.length - 2 := by
    rw [hks, List.length_drop]
  refine ⟨computedShape ctx.xDims (globalAdjust ctx.xDims ctx.attrs), ?_, ?_, ?_⟩
  · exact inferShape_ok ctx hX hO hM hrank (by omega)
      (by rw [hklen, hstr]; omega) (by rw [hklen, hpad, zeroFirst_length]; omega)
  · exact computedShape_length _ _ (by omega) (by omega)
      (by rw [hklen, hstr]; omega) (by rw [hklen, hpad, zeroFirst_length]; omega)
  · intro i h2 hlt
    obtain ⟨j, rfl⟩ : ∃ j, i = 2 + j := ⟨i - 2, by omega⟩
    rw [computedShape_getElem?_spatial _ _ _ (by omega)]
    have hjlt : j < (ctx.xDims.drop 2).length := by
      rw [List.length_drop]; omega
    have hda : (ctx.xDims.drop 2)[j]? = some (ctx.xDims.drop 2)[j] :=
      List.getElem?_eq_getElem hjlt
    have hsb : ctx.attrs.strides[j]? = some ctx.attrs.strides[j] :=
      List.getElem?_eq_getElem (by omega)
    rw [hks, hpad, hstr,
      outDims_getElem? _ _ _ _ j (ctx.xDims.drop 2)[j] (ctx.xDims.drop 2)[j] 0
        ctx.attrs.strides[j] hda hda
        (zeroFirst_getElem? _ _ _ (by omega) (by omega)) hsb]
    unfold OutputSizeMaxPool
    rw [show (ctx.xDims.drop 2)[j] - (ctx.xDims.drop 2)[j] + 2 * 0 = 0 by ring,
      Int.zero_tdiv]
    norm_num

/-- C4 witness: input `2×3×4×5`, `globalPooling = true`, supplied
`windowSize = [9, 9, 9]` of the wrong length and nonzero paddings. -/
theorem global_pooling_outdim_one_witness :
    ∃ out, inferShape ⟨true, true, true, [2, 3, 4, 5], ⟨[9, 9, 9], [1, 1], [6, 6], true⟩⟩
        = Except.ok (out, out)
      ∧ out.length = ([2, 3, 4, 5] : List Int).length
      ∧ ∀ i, 2 ≤ i → i < ([2, 3, 4, 5] : List Int).length → out[i]? = some 1 :=
  global_pooling_outdim_one
    ⟨true, true, true, [2, 3, 4, 5], ⟨[9, 9, 9], [1, 1], [6, 6], true⟩⟩
    rfl rfl rfl rfl (by decide) (by decide) (by decide) (by decide)

/-- C5 amended: the length preconditions are checked against the
configuration *after* the global-pooling adjustment (for
`globalPooling = false` this is the supplied configuration): any violation
of input rank ∈ {4,5}, adjusted `|windowSize| = rank − 2`,
adjusted `|windowSize| = |stride|` or adjusted `|windowSize| = |padding|`
makes shape inference fail with a configuration error, setting no output
dimension. -/
theorem precondition_violation_errors (ctx : PoolCtx)
    (hX : ctx.hasX = true) (hO : ctx.hasOut = true) (hM : ctx.hasMask = true)
    (hviol : ¬(ctx.xDims.length = 4 ∨ ctx.xDims.length = 5)
      ∨ ¬(ctx.xDims.length = (globalAdjust ctx.xDims ctx.attrs).ksize.length + 2)
      ∨ ¬((globalAdjust ctx.xDims ctx.attrs).ksize.length
            = (globalAdjust ctx.xDims ctx.attrs).strides.length)
      ∨ ¬((globalAdjust ctx.xDims ctx.attrs).ksize.length
            = (globalAdjust ctx.xDims ctx.attrs).paddings.length)) :
    ∃ e, inferShape ctx = Except.error e := by
  simp only [inferShape, hX, hO, hM, if_true]
  split_ifs with h1 h2 h3 h4
  · tauto
  · exact ⟨errPaddings, rfl⟩
  · exact ⟨errStrides, rfl⟩
  · exact ⟨errConsistent, rfl⟩
  · exact ⟨errRank, rfl⟩

/-- C5 amended witness: rank-4 input with `globalPooling = false` and a
supplied `windowSize` of length 1. -/
theorem precondition_violation_errors_witness :
    ∃ e, inferShape ⟨true, true, true, [1, 1, 4, 4], ⟨[3], [1, 1], [0, 0], false⟩⟩
      = Except.error e :=
  precondition_violation_errors
    ⟨true, true, true, [1, 1, 4, 4], ⟨[3], [1, 1], [0, 0], false⟩⟩
    rfl rfl rfl (by decide)

/-- C9: with `globalPooling = true` the supplied `windowSize` is replaced by
a vector of length `rank − 2` before the size-consistency check, so the
"Input size and pooling size should be consistent" error can never fire;
and for any supplied `windowSize` whatsoever (any length), shape inference
succeeds provided the remaining attributes are well-sized (and strides
nonzero, avoiding C++ division by zero). -/
theorem global_pooling_bypasses_ksize_check (ctx : PoolCtx)
    (hg : ctx.attrs.globalPooling = true) :
    inferShape ctx ≠ Except.error errConsistent
    ∧ (ctx.hasX = true → ctx.hasOut = true → ctx.hasMask = true →
       (ctx.xDims.length = 4 ∨ ctx.xDims.length = 5) →
       ctx.attrs.strides.length = ctx.xDims.length - 2 →
       ctx.attrs.paddings.length = ctx.xDims.length - 2 →
       (∀ s ∈ ctx.attrs.strides, s ≠ 0) →
       ∃ out, inferShape ctx = Except.ok (out, out)) := by
  have hklen : (globalAdjust ctx.xDims ctx.attrs).ksize.length = ctx.xDims.length - 2 := by
    rw [globalAdjust_ksize_of_global _ _ hg, List.length_drop]
  constructor
  · intro hcontra
    simp only [inferShape] at hcontra
    split_ifs at hcontra with h1 h2 h3 h4 h5 h6 h7
    all_goals
      first
        | (rw [hklen] at h5
           rcases h4 with h | h <;> omega)
        | exact absurd hcontra (by
            simp [errX, errOut, errMask, errRank, errConsistent, errStrides, errPaddings])
  · intro hX hO hM hrank hs hp _hnz
    refine ⟨computedShape ctx.xDims (globalAdjust ctx.xDims ctx.attrs), ?_⟩
    exact inferShape_ok ctx hX hO hM hrank (by omega)
      (by rw [hklen, globalAdjust_strides]; omega)
      (by rw [hklen, globalAdjust_paddings_of_global _ _ hg, zeroFirst_length]; omega)

/-- C9 witness: `globalPooling = true`, input `1×1×4×4`, supplied
`windowSize = [3]` of length 1: no consistency error, and inference
succeeds. -/
theorem global_pooling_bypasses_ksize_check_witness :
    inferShape ⟨true, true, true, [1, 1, 4, 4], ⟨[3], [1, 1], [0, 0], true⟩⟩
      ≠ Except.error errConsistent
    ∧ ∃ out, inferShape ⟨true, true, true, [1, 1, 4, 4], ⟨[3], [1, 1], [0, 0], true⟩⟩
        = Except.ok (out, out) :=
  ⟨(global_pooling_bypasses_ksize_check
      ⟨true, true, true, [1, 1, 4, 4], ⟨[3], [1, 1], [0, 0], true⟩⟩ rfl).1,
   (global_pooling_bypasses_ksize_check
      ⟨true, true, true, [1, 1, 4, 4], ⟨[3], [1, 1], [0, 0], true⟩⟩ rfl).2
     rfl rfl rfl (by decide) (by decide) (by decide) (by decide)⟩

/-- Modelled from the spec: one step of the ForwardKernel scan (section 4.3
step 3; the kernel source `paddle/operators/math/pooling` is not under
`src/`).  The running pair `(position, best value)` is replaced only when a
strictly larger value is seen, so on ties the first encountered position is
kept. -/
def poolStep {α : Type} (v : α → Int) (acc : α × Int) (p : α) : α × Int :=
  if acc.2 < v p then (p, v p) else acc

/-- Modelled from the spec: the ForwardKernel scan over the window positions
in their fixed deterministic order (section 4.3 step 3), returning the best
`(position, value)`; `none` on an empty window (spec section 4.3 step 2
treats that as a configuration error). -/
def poolScan {α : Type} (v : α → Int) : List α → Option (α × Int)
  | [] => none
  | p :: ps => some (List.foldl (poolStep v) (p, v p) ps)

/-- Recursive characterization of the scan: the first position achieving the
maximum, with the maximum value. -/
def firstMax {α : Type} (v : α → Int) : List α → Option (α × Int)
  | [] => none
  | p :: ps =>
    match firstMax v ps with
    | none => some (p, v p)
    | some (q, m) => if v p < m then some (q, m) else some (p, v p)

lemma foldl_poolStep_eq {α : Type} (v : α → Int) (l : List α) : ∀ a : α,
    List.foldl (poolStep v) (a, v a) l =
      match firstMax v l with
      | none => (a, v a)
      | some (q, m) => if v a < m then (q, m) else (a, v a) := by
  induction l with
  | nil => intro a; rfl
  | cons p l ih =>
    intro a
    have hstep : poolStep v (a, v a) p = if v a < v p then (p, v p) else (a, v a) := rfl
    rw [List.foldl_cons, hstep]
    by_cases hap : v a < v p
    · rw [if_pos hap, ih p]
      cases hfm : firstMax v l with
      | none => simp [firstMax, hfm, hap]
      | some qm =>
        obtain ⟨q, m⟩ := qm
        simp only [firstMax, hfm]
        by_cases hpm : v p < m
        · simp [hpm, show v a < m by omega]
        · simp [hpm, hap]
    · rw [if_neg hap, ih a]
      cases hfm : firstMax v l with
      | none => simp [firstMax, hfm, hap]
      | some qm =>
        obtain ⟨q, m⟩ := qm
        simp only [firstMax, hfm]
        by_cases hpm : v p < m
        · simp [hpm]
        · simp [hpm, hap, show ¬v a < m by omega]

lemma poolScan_eq_firstMax {α : Type} (v : α → Int) (l : List α) :
    poolScan v l = firstMax v l := by
  cases l with
  | nil => rfl
  | cons p l =>
    show some (List.foldl (poolStep v) (p, v p) l) = _
    rw [foldl_poolStep_eq v l p]
    cases hfm : firstMax v l with
    | none => simp [firstMax, hfm]
    | some qm =>
      obtain ⟨q, m⟩ := qm
      simp only [firstMax, hfm]
      by_cases hpm : v p < m
      · rw [if_pos hpm, if_pos hpm]
      · rw [if_neg hpm, if_neg hpm]

lemma firstMax_ne_none {α : Type} (v : α → Int) (p : α) (ps : List α) :
    firstMax v (p :: ps) ≠ none := by
  cases hfm : firstMax v ps with
  | none => simp [firstMax, hfm]
  | some qm =>
    obtain ⟨q, m⟩ := qm
    by_cases hpm : v p < m
    · simp [firstMax, hfm, hpm]
    · simp [firstMax, hfm, hpm]

lemma firstMax_spec {α : Type} (v : α → Int) (l : List α) (q : α) (m : Int)
    (h : firstMax v l = some (q, m)) :
    v q = m ∧ (∀ p ∈ l, v p ≤ m)
      ∧ List.find? (fun p => v p == m) l = some q := by
  induction l generalizing q m with
  | nil => exact absurd h (by simp [firstMax])
  | cons p ps ih =>
    cases hfm : firstMax v ps with
    | none =>
      simp only [firstMax, hfm] at h
      simp only [Option.some.injEq, Prod.mk.injEq] at h
      obtain ⟨rfl, rfl⟩ := h
      have hnil : ps = [] := by
        cases ps with
        | nil => rfl
        | cons x xs => exact absurd hfm (firstMax_ne_none v x xs)
      subst hnil
      refine ⟨rfl, ?_, ?_⟩
      · intro x hx
        simp only [List.mem_singleton] at hx
        subst hx
        exact le_refl _
      · exact List.find?_cons_of_pos _ (by simp)
    | some qm =>
      obtain ⟨q', m'⟩ := qm
      simp only [firstMax, hfm] at h
      obtain ⟨hv', hle', hfind'⟩ := ih q' m' hfm
      by_cases hpm : v p < m'
      · rw [if_pos hpm] at h
        simp only [Option.some.injEq, Prod.mk.injEq] at h
        obtain ⟨rfl, rfl⟩ := h
        refine ⟨hv', ?_, ?_⟩
        · intro x hx
          rcases List.mem_cons.mp hx with rfl | hx
          · omega
          · exact hle' x hx
        · rw [List.find?_cons_of_neg _ (by simp; omega)]
          exact hfind'
      · rw [if_neg hpm] at h
        simp only [Option.some.injEq, Prod.mk.injEq] at h
        obtain ⟨rfl, rfl⟩ := h
        refine ⟨rfl, ?_, ?_⟩
        · intro x hx
          rcases List.mem_cons.mp hx with rfl | hx
          · exact le_refl _
          · exact le_trans (hle' x hx) (by omega)
        · exact List.find?_cons_of_pos _ (by simp)

/-- Modelled from the spec: clipped window start along one axis,
`max(o*stride − padding, 0)` (section 4.3 steps 1-2). -/
def winStart (o s p : Int) : Int := max (o * s - p) 0

/-- Modelled from the spec: clipped window end along one axis,
`min(o*stride − padding + windowSize, inDim)` (section 4.3 steps 1-2). -/
def winEnd (o s p k lim : Int) : Int := min (o * s - p + k) lim

/-- The integers of `[a, b)` in ascending order. -/
def intRange (a b : Int) : List Int :=
  (List.range (b - a).toNat).map (fun n : Nat => a + (n : Int))

lemma mem_intRange (x a b : Int) : x ∈ intRange a b ↔ a ≤ x ∧ x < b := by
  simp only [intRange, List.mem_map, List.mem_range]
  constructor
  · rintro ⟨n, hn, rfl⟩
    omega
  · intro hx
    exact ⟨(x - a).toNat, by omega, by omega⟩

/-- Modelled from the spec: the valid (clipped) 2-D window positions for
output coordinate `(oh, ow)`, in row-major scan order (`h` outer, `w`
inner, both ascending; section 4.3 steps 2-3). -/
def window2d (H W kh kw sh sw ph pw oh ow : Int) : List (Int × Int) :=
  (intRange (winStart oh sh ph) (winEnd oh sh ph kh H)).flatMap
    (fun h => (intRange (winStart ow sw pw) (winEnd ow sw pw kw W)).map (fun w => (h, w)))

lemma mem_window2d (H W kh kw sh sw ph pw oh ow : Int) (q : Int × Int) :
    q ∈ window2d H W kh kw sh sw ph pw oh ow ↔
      (winStart oh sh ph ≤ q.1 ∧ q.1 < winEnd oh sh ph kh H)
      ∧ (winStart ow sw pw ≤ q.2 ∧ q.2 < winEnd ow sw pw kw W) := by
  obtain ⟨h, w⟩ := q
  constructor
  · intro hq
    obtain ⟨h', hh', hq⟩ := List.mem_flatMap.mp hq
    obtain ⟨w', hw', heq⟩ := List.mem_map.mp hq
    obtain ⟨rfl, rfl⟩ := Prod.mk.injEq .. ▸ heq
    exact ⟨(mem_intRange _ _ _).mp hh', (mem_intRange _ _ _).mp hw'⟩
  · rintro ⟨hh, hw⟩
    exact List.mem_flatMap.mpr
      ⟨h, (mem_intRange _ _ _).mpr hh, List.mem_map.mpr ⟨w, (mem_intRange _ _ _).mpr hw, rfl⟩⟩

/-- Modelled from the spec: the 2-D ForwardKernel at one output position
(section 4.3).  Returns `some (Out[n,c,oh,ow], Mask[n,c,oh,ow])`: the
first-wins maximum over the clipped window and its flat row-major offset
`h*W + w` within the `(n,c)` spatial slice; `none` on an empty window. -/
def maxPool2dWithIndex (X : Int → Int → Int → Int → Int)
    (H W kh kw sh sw ph pw n c oh ow : Int) : Option (Int × Int) :=
  (poolScan (fun q => X n c q.1 q.2) (window2d H W kh kw sh sw ph pw oh ow)).map
    (fun r => (r.2, r.1.1 * W + r.1.2))

/-- Modelled from the spec: the valid (clipped) 3-D window positions for
output coordinate `(od, oh, ow)`, in row-major scan order (`d` outermost,
then `h`, then `w`, all ascending; section 4.3 steps 2-3). -/
def window3d (D H W kd kh kw sd sh sw pd ph pw od oh ow : Int) :
    List (Int × Int × Int) :=
  (intRange (winStart od sd pd) (winEnd od sd pd kd D)).flatMap
    (fun d => (intRange (winStart oh sh ph) (winEnd oh sh ph kh H)).flatMap
      (fun h => (intRange (winStart ow sw pw) (winEnd ow sw pw kw W)).map
        (fun w => (d, h, w))))

lemma mem_window3d (D H W kd kh kw sd sh sw pd ph pw od oh ow : Int)
    (q : Int × Int × Int) :
    q ∈ window3d D H W kd kh kw sd sh sw pd ph pw od oh ow ↔
      (winStart od sd pd ≤ q.1 ∧ q.1 < winEnd od sd pd kd D)
      ∧ (winStart oh sh ph ≤ q.2.1 ∧ q.2.1 < winEnd oh sh ph kh H)
      ∧ (winStart ow sw pw ≤ q.2.2 ∧ q.2.2 < winEnd ow sw pw kw W) := by
  obtain ⟨d, h, w⟩ := q
  constructor
  · intro hq
    obtain ⟨d', hd', hq⟩ := List.mem_flatMap.mp hq
    obtain ⟨h', hh', hq⟩ := List.mem_flatMap.mp hq
    obtain ⟨w', hw', heq⟩ := List.mem_map.mp hq
    obtain ⟨rfl, rfl, rfl⟩ : d' = d ∧ h' = h ∧ w' = w := by
      simpa using heq
    exact ⟨(mem_intRange _ _ _).mp hd', (mem_intRange _ _ _).mp hh',
      (mem_intRange _ _ _).mp hw'⟩
  · rintro ⟨hd, hh, hw⟩
    exact List.mem_flatMap.mpr
      ⟨d, (mem_intRange _ _ _).mpr hd, List.mem_flatMap.mpr
        ⟨h, (mem_intRange _ _ _).mpr hh, List.mem_map.mpr
          ⟨w, (mem_intRange _ _ _).mpr hw, rfl⟩⟩⟩

/-- Modelled from the spec: the 3-D ForwardKernel at one output position
(section 4.3).  Returns `some (Out[n,c,od,oh,ow], Mask[n,c,od,oh,ow])` with
the flat row-major offset `(d*H + h)*W + w`; `none` on an empty window. -/
def maxPool3dWithIndex (X : Int → Int → Int → Int → Int → Int)
    (D H W kd kh kw sd sh sw pd ph pw n c od oh ow : Int) : Option (Int × Int) :=
  (poolScan (fun q => X n c q.1 q.2.1 q.2.2)
      (window3d D H W kd kh kw sd sh sw pd ph pw od oh ow)).map
    (fun r => (r.2, (r.1.1 * H + r.1.2.1) * W + r.1.2.2))

/-- C8 (spec-modelled; the kernel source is not under `src/`): for every
batch index, channel index and output coordinate with a nonempty clipped
window, the forward kernel writes `Out` equal to the maximum of `X` over the
valid window and writes to `Mask` the flat row-major offset of the winning
position within the `(n,c)` spatial slice, so that `X` at the decoded offset
equals `Out`; on ties the first position in row-major scan order wins
(stated via `List.find?`, which returns the first match).  Both the 2-D and
the 3-D kernels are covered. -/
theorem forward_kernel_max_and_mask :
    (∀ (X : Int → Int → Int → Int → Int) (H W kh kw sh sw ph pw n c oh ow : Int),
      window2d H W kh kw sh sw ph pw oh ow ≠ [] → 0 < W →
      ∃ val idx h w,
        maxPool2dWithIndex X H W kh kw sh sw ph pw n c oh ow = some (val, idx)
        ∧ (h, w) ∈ window2d H W kh kw sh sw ph pw oh ow
        ∧ idx = h * W + w
        ∧ X n c h w = val
        ∧ (∀ q ∈ window2d H W kh kw sh sw ph pw oh ow, X n c q.1 q.2 ≤ val)
        ∧ X n c (idx / W) (idx % W) = val
        ∧ List.find? (fun q => X n c q.1 q.2 == val)
            (window2d H W kh kw sh sw ph pw oh ow) = some (h, w))
    ∧ (∀ (X : Int → Int → Int → Int → Int → Int)
        (D H W kd kh kw sd sh sw pd ph pw n c od oh ow : Int),
      window3d D H W kd kh kw sd sh sw pd ph pw od oh ow ≠ [] → 0 < H → 0 < W →
      ∃ val idx d h w,
        maxPool3dWithIndex X D H W kd kh kw sd sh sw pd ph pw n c od oh ow
            = some (val, idx)
        ∧ (d, h, w) ∈ window3d D H W kd kh kw sd sh sw pd ph pw od oh ow
        ∧ idx = (d * H + h) * W + w
        ∧ X n c d h w = val
        ∧ (∀ q ∈ window3d D H W kd kh kw sd sh sw pd ph pw od oh ow,
            X n c q.1 q.2.1 q.2.2 ≤ val)
        ∧ X n c (idx / W / H) (idx / W % H) (idx % W) = val
        ∧ List.find? (fun q => X n c q.1 q.2.1 q.2.2 == val)
            (window3d D H W kd kh kw sd sh sw pd ph pw od oh ow) = some (d, h, w)) := by
  constructor
  · intro X H W kh kw sh sw ph pw n c oh ow hne hW
    cases hw : window2d H W kh kw sh sw ph pw oh ow with
    | nil => exact absurd hw hne
    | cons p ps =>
      cases hfm : firstMax (fun q : Int × Int => X n c q.1 q.2) (p :: ps) with
      | none => exact absurd hfm (firstMax_ne_none _ p ps)
      | some r =>
        obtain ⟨⟨h, w⟩, m⟩ := r
        obtain ⟨hvq, hle, hfind⟩ := firstMax_spec _ (p :: ps) (h, w) m hfm
        have hmem : (h, w) ∈ p :: ps := List.mem_of_find?_eq_some hfind
        have hbounds := (mem_window2d H W kh kw sh sw ph pw oh ow (h, w)).mp (hw ▸ hmem)
        simp only [winStart, winEnd] at hbounds
        have h0h : 0 ≤ h := by omega
        have h0w : 0 ≤ w := by omega
        have hwW : w < W := by omega
        have hdiv : (h * W + w) / W = h := by
          rw [add_comm, Int.add_mul_ediv_right w h (by omega : W ≠ 0),
            Int.ediv_eq_zero_of_lt h0w hwW, zero_add]
        have hmod : (h * W + w) % W = w := by
          rw [add_comm, Int.add_mul_emod_self, Int.emod_eq_of_lt h0w hwW]
        refine ⟨m, h * W + w, h, w, ?_, hmem, rfl, hvq, hle, ?_, hfind⟩
        · unfold maxPool2dWithIndex
          rw [hw, poolScan_eq_firstMax, hfm]
          rfl
        · rw [hdiv, hmod]
          exact hvq
  · intro X D H W kd kh kw sd sh sw pd ph pw n c od oh ow hne hH hW
    cases hw : window3d D H W kd kh kw sd sh sw pd ph pw od oh ow with
    | nil => exact absurd hw hne
    | cons p ps =>
      cases hfm : firstMax (fun q : Int × Int × Int => X n c q.1 q.2.1 q.2.2) (p :: ps) with
      | none => exact absurd hfm (firstMax_ne_none _ p ps)
      | some r =>
        obtain ⟨⟨d, h, w⟩, m⟩ := r
        obtain ⟨hvq, hle, hfind⟩ := firstMax_spec _ (p :: ps) (d, h, w) m hfm
        have hmem : (d, h, w) ∈ p :: ps := List.mem_of_find?_eq_some hfind
        have hbounds :=
          (mem_window3d D H W kd kh kw sd sh sw pd ph pw od oh ow (d, h, w)).mp (hw ▸ hmem)
        simp only [winStart, winEnd] at hbounds
        have h0d : 0 ≤ d := by omega
        have h0h : 0 ≤ h := by omega
        have hhH : h < H := by omega
        have h0w : 0 ≤ w := by omega
        have hwW : w < W := by omega
        have hdivW : ((d * H + h) * W + w) / W = d * H + h := by
          rw [add_comm, Int.add_mul_ediv_right w (d * H + h) (by omega : W ≠ 0),
            Int.ediv_eq_zero_of_lt h0w hwW, zero_add]
        have hmodW : ((d * H + h) * W + w) % W = w := by
          rw [add_comm, Int.add_mul_emod_self, Int.emod_eq_of_lt h0w hwW]
        have hdivH : (d * H + h) / H = d := by
          rw [add_comm, Int.add_mul_ediv_right h d (by omega : H ≠ 0),
            Int.ediv_eq_zero_of_lt h0h hhH, zero_add]
        have hmodH : (d * H + h) % H = h := by
          rw [add_comm, Int.add_mul_emod_self, Int.emod_eq_of_lt h0h hhH]
        refine ⟨m, (d * H + h) * W + w, d, h, w, ?_, hmem, rfl, hvq, hle, ?_, hfind⟩
        · unfold maxPool3dWithIndex
          rw [hw, poolScan_eq_firstMax, hfm]
          rfl
        · rw [hdivW, hmodW, hdivH, hmodH]
          exact hvq

/-- A concrete 2-D input slice for evaluating the forward kernel. -/
def sampleX2d : Int → Int → Int → Int → Int := fun _ _ h w => 3 * h + w

/-- A concrete 3-D input slice for evaluating the forward kernel. -/
def sampleX3d : Int → Int → Int → Int → Int → Int := fun _ _ d h w => d + h + w

/-- C8 witness: the 2-D kernel on a `4×4` slice with window `2×2`, stride
`2×2`, no padding, at output position `(0,0)`; and the 3-D kernel on a
`2×2×2` slice with window `2×2×2`, stride `1`, no padding, at `(0,0,0)`. -/
theorem forward_kernel_max_and_mask_witness :
    (∃ val idx h w,
        maxPool2dWithIndex sampleX2d 4 4 2 2 2 2 0 0 0 0 0 0 = some (val, idx)
        ∧ (h, w) ∈ window2d 4 4 2 2 2 2 0 0 0 0
        ∧ idx = h * 4 + w
        ∧ sampleX2d 0 0 h w = val
        ∧ (∀ q ∈ window2d 4 4 2 2 2 2 0 0 0 0, sampleX2d 0 0 q.1 q.2 ≤ val)
        ∧ sampleX2d 0 0 (idx / 4) (idx % 4) = val
        ∧ List.find? (fun q => sampleX2d 0 0 q.1 q.2 == val)
            (window2d 4 4 2 2 2 2 0 0 0 0) = some (h, w))
    ∧ (∃ val idx d h w,
        maxPool3dWithIndex sampleX3d 2 2 2 2 2 2 1 1 1 0 0 0 0 0 0 0 0 = some (val, idx)
        ∧ (d, h, w) ∈ window3d 2 2 2 2 2 2 1 1 1 0 0 0 0 0 0
        ∧ idx = (d * 2 + h) * 2 + w
        ∧ sampleX3d 0 0 d h w = val
        ∧ (∀ q ∈ window3d 2 2 2 2 2 2 1 1 1 0 0 0 0 0 0,
            sampleX3d 0 0 q.1 q.2.1 q.2.2 ≤ val)
        ∧ sampleX3d 0 0 (idx / 2 / 2) (idx / 2 % 2) (idx % 2) = val
        ∧ List.find? (fun q => sampleX3d 0 0 q.1 q.2.1 q.2.2 == val)
            (window3d 2 2 2 2 2 2 1 1 1 0 0 0 0 0 0) = some (d, h, w)) :=
  ⟨forward_kernel_max_and_mask.1 sampleX2d 4 4 2 2 2 2 0 0 0 0 0 0
      (by decide) (by decide),
   forward_kernel_max_and_mask.2 sampleX3d 2 2 2 2 2 2 1 1 1 0 0 0 0 0 0 0 0
      (by decide) (by decide) (by decide)⟩
